import Mathlib

/-!
Shallow embedding of the FinKen 2.0 double-entry bookkeeping core
(backend/routes/journal_entries.py and backend/routes/accounts.py).

The persistence collaborator (Supabase) is modelled as an explicit record of
tables (`DBState`).  Each route handler becomes a function from a `DBState`
(together with the acting user and its request parameters) to either an error
or an updated `DBState`; every error a handler raises in the source is raised
before any table write, except for the line-replacing edit route which is
modelled with its state threaded explicitly.  Python `Decimal` values are
modelled by `Dec` (an integer mantissa together with a decimal scale), whose
numeric value is a rational; `Decimal` arithmetic is exact, so sums and
comparisons are mirrored by rational arithmetic on `Dec.val`.
-/

/-- Python `Decimal`: integer mantissa `mant` with `scale` digits after the
decimal point.  `Decimal("150.00")` is `⟨15000, 2⟩`.  Equality of `Dec` values
is equality of the printed string (numeric value and scale); Python `Decimal`
comparison is the numeric comparison of `Dec.val`. -/
structure Dec where
  mant : Int
  scale : Nat
deriving DecidableEq, Repr

/-- Numeric value of a decimal. -/
def Dec.val (d : Dec) : ℚ := (d.mant : ℚ) / (10 : ℚ) ^ d.scale

/-- Powers of ten as integers, by structural recursion so that concrete
decimal arithmetic reduces inside the kernel. -/
def pow10 : Nat → Int
  | 0 => 1
  | n + 1 => 10 * pow10 n

theorem pow10_eq (n : Nat) : pow10 n = (10 : Int) ^ n := by
  induction n with
  | zero => rfl
  | succ k ih => rw [pow10, ih, pow_succ]; ring

/-- Python `Decimal` addition: align mantissas at the larger scale. -/
def Dec.add (a b : Dec) : Dec :=
  let s := max a.scale b.scale
  ⟨a.mant * pow10 (s - a.scale) + b.mant * pow10 (s - b.scale), s⟩

/-- Python `Decimal` subtraction: align mantissas at the larger scale. -/
def Dec.sub (a b : Dec) : Dec :=
  let s := max a.scale b.scale
  ⟨a.mant * pow10 (s - a.scale) - b.mant * pow10 (s - b.scale), s⟩

/-- Python `Decimal` equality comparison (numeric, scale-insensitive). -/
def Dec.numEq (a b : Dec) : Bool :=
  a.mant * pow10 b.scale == b.mant * pow10 a.scale

/-- Python `Decimal` less-or-equal comparison (numeric). -/
def Dec.numLE (a b : Dec) : Bool :=
  a.mant * pow10 b.scale ≤ b.mant * pow10 a.scale

/-- Python `abs` on a `Decimal` (keeps the scale). -/
def Dec.abs (d : Dec) : Dec := ⟨|d.mant|, d.scale⟩

theorem aligned_div_eq (m : Int) (s S : Nat) (h : s ≤ S) :
    ((m * pow10 (S - s) : Int) : ℚ) / (10 : ℚ) ^ S = (m : ℚ) / (10 : ℚ) ^ s := by
  have hp : (10 : ℚ) ^ (S - s) * 10 ^ s = 10 ^ S := by
    rw [← pow_add, Nat.sub_add_cancel h]
  rw [div_eq_div_iff (by positivity) (by positivity)]
  push_cast [pow10_eq]
  rw [mul_assoc, hp]

theorem Dec.val_add (a b : Dec) : (a.add b).val = a.val + b.val := by
  unfold Dec.add Dec.val
  push_cast
  rw [add_div]
  congr 1
  · have := aligned_div_eq a.mant a.scale (max a.scale b.scale) (Nat.le_max_left _ _)
    push_cast at this
    exact this
  · have := aligned_div_eq b.mant b.scale (max a.scale b.scale) (Nat.le_max_right _ _)
    push_cast at this
    exact this

theorem Dec.val_sub (a b : Dec) : (a.sub b).val = a.val - b.val := by
  unfold Dec.sub Dec.val
  push_cast
  rw [sub_div]
  congr 1
  · have := aligned_div_eq a.mant a.scale (max a.scale b.scale) (Nat.le_max_left _ _)
    push_cast at this
    exact this
  · have := aligned_div_eq b.mant b.scale (max a.scale b.scale) (Nat.le_max_right _ _)
    push_cast at this
    exact this

theorem Dec.numEq_iff (a b : Dec) : a.numEq b = true ↔ a.val = b.val := by
  unfold Dec.numEq Dec.val
  rw [beq_iff_eq, div_eq_div_iff (by positivity) (by positivity), pow10_eq, pow10_eq]
  constructor
  · intro h
    exact_mod_cast h
  · intro h
    exact_mod_cast h

theorem Dec.numLE_iff (a b : Dec) : a.numLE b = true ↔ a.val ≤ b.val := by
  unfold Dec.numLE Dec.val
  rw [decide_eq_true_eq, div_le_div_iff₀ (by positivity) (by positivity),
    pow10_eq, pow10_eq]
  constructor
  · intro h
    exact_mod_cast h
  · intro h
    exact_mod_cast h

/-- Errors the route handlers raise (each `HTTPException` branch of the
source, named after the condition it reports). -/
inductive ApiErr
  | permission
  | notFound
  | invalidState
  | tooFewLines
  | missingLineFields
  | nonPositiveAmount
  | invalidLineType
  | unbalanced (totalDebit totalCredit : Dec)
  | reasonTooShort
  | conflict
  | invalidNormalSide
  | invalidCategory
  | nonzeroBalance
deriving DecidableEq, Repr

/-- Row of `chartofaccounts`. -/
structure AccountRow where
  accountID : Nat
  accountNumber : String
  accountName : String
  accountDescription : Option String
  normalSide : String
  category : String
  subcategory : Option String
  balance : Dec
  displayOrder : Option Nat
  statementType : Option String
  isActive : Bool
  dateCreated : String
  comment : Option String
deriving DecidableEq, Repr

/-- Row of `journalentries`. -/
structure EntryRow where
  journalEntryID : Nat
  entryDate : String
  description : Option String
  status : String
  isAdjusting : Bool
  createdBy : String
  creationDate : String
  approvedBy : Option String
  approvalDate : Option String
  rejectionReason : Option String
deriving DecidableEq, Repr

/-- Row of `journalentrylines`; the `Amount` column stores the decimal string
the client submitted, hence a `Dec` (value and scale). -/
structure LineRow where
  journalEntryID : Nat
  accountID : Nat
  type : String
  amount : Dec
deriving DecidableEq, Repr

/-- Row of `accountledger`. -/
structure PostingRow where
  accountID : Nat
  journalEntryID : Nat
  transactionDate : String
  description : String
  debit : Dec
  credit : Dec
  postTimestamp : String
deriving DecidableEq, Repr

/-- The database the handlers act on.  `profiles` maps a user id to its role
name (the join `profiles → roles(RoleName)` of the source); `logs` counts the
rows of `journal_event_logs` (their content never feeds back into the core). -/
structure DBState where
  profiles : List (String × Option String)
  accounts : List AccountRow
  entries : List EntryRow
  lines : List LineRow
  ledger : List PostingRow
  logs : Nat
deriving DecidableEq, Repr

/-- Role lookup: `profiles.select("roles(RoleName)").eq("id", user_id)`. -/
def userRole (db : DBState) (userId : String) : Option String :=
  match db.profiles.find? (fun p => p.1 == userId) with
  | none => none
  | some p => p.2

/-- `journalentries.select("*").eq("JournalEntryID", id).single()`. -/
def findEntry (db : DBState) (entryId : Nat) : Option EntryRow :=
  db.entries.find? (fun e => e.journalEntryID == entryId)

/-- `chartofaccounts.select("*").eq("AccountID", id).single()`. -/
def findAccount (db : DBState) (accountId : Nat) : Option AccountRow :=
  db.accounts.find? (fun a => a.accountID == accountId)

/-- `journalentrylines.select("*").eq("JournalEntryID", id)`. -/
def entryLines (db : DBState) (entryId : Nat) : List LineRow :=
  db.lines.filter (fun l => l.journalEntryID == entryId)

/-- The balance column of every account, keyed by account id. -/
def accountBalances (db : DBState) : List (Nat × Dec) :=
  db.accounts.map (fun a => (a.accountID, a.balance))

/-- The balance-update arithmetic of `approve_journal_entry` (the four-way
branch on the line type and the account's `NormalSide`). -/
def computeNewBalance (currentBalance amount : Dec) (lineType normalSide : String) : Dec :=
  if lineType == "Debit" then
    if normalSide == "Debit" then currentBalance.add amount
    else currentBalance.sub amount
  else
    if normalSide == "Credit" then currentBalance.add amount
    else currentBalance.sub amount

/-- One element of the parsed `lines` JSON array of a create/edit request.
`none` in a field models the key being absent from the JSON object; the
amount, when present, is a decimal (the handler parses it with
`Decimal(str(line["amount"]))`). -/
structure RawLine where
  account_id : Option Nat
  type : Option String
  amount : Option Dec
deriving DecidableEq, Repr

/-- The per-line loop of the line validation in `create_journal_entry` (and
the identical loop of the line-replacing branch of `update_journal_entry`):
field presence, positivity, Debit/Credit dispatch into the running totals,
and the final comparison of the two totals. -/
def validateGo : List RawLine → Dec → Dec → Except ApiErr (Dec × Dec)
  | [], totalDebit, totalCredit =>
    if !(totalDebit.numEq totalCredit) then
      .error (.unbalanced totalDebit totalCredit)
    else .ok (totalDebit, totalCredit)
  | l :: ls, totalDebit, totalCredit =>
    match l.account_id, l.type, l.amount with
    | some _, some t, some a =>
      if a.numLE ⟨0, 0⟩ then .error .nonPositiveAmount
      else if t == "Debit" then validateGo ls (totalDebit.add a) totalCredit
      else if t == "Credit" then validateGo ls totalDebit (totalCredit.add a)
      else .error .invalidLineType
    | _, _, _ => .error .missingLineFields

/-- Line validation of `create_journal_entry`: the length check followed by
the totals loop, with both totals starting at `Decimal("0.00")`. -/
def validateLines (linesData : List RawLine) : Except ApiErr (Dec × Dec) :=
  if linesData.length < 2 then .error .tooFewLines
  else validateGo linesData ⟨0, 2⟩ ⟨0, 2⟩

/-- Specification-side well-formedness of one line: account reference
present, a type in Debit/Credit, and a strictly positive amount. -/
def LineOk (l : RawLine) : Prop :=
  l.account_id.isSome = true ∧
  (l.type = some "Debit" ∨ l.type = some "Credit") ∧
  ∃ d, l.amount = some d ∧ 0 < d.val

instance (l : RawLine) : Decidable (LineOk l) := by
  unfold LineOk; infer_instance

/-- Specification-side exact sum of the Debit amounts of a line set. -/
def debitSum (ls : List RawLine) : ℚ :=
  ((ls.filter (fun l => l.type == some "Debit")).map
    (fun l => (l.amount.getD ⟨0, 0⟩).val)).sum

/-- Specification-side exact sum of the Credit amounts of a line set. -/
def creditSum (ls : List RawLine) : ℚ :=
  ((ls.filter (fun l => l.type == some "Credit")).map
    (fun l => (l.amount.getD ⟨0, 0⟩).val)).sum

/-- Python truthiness fallback on an optional string
(`entry_data.get("Description") or default`). -/
def pyOr (o : Option String) (dflt : String) : String :=
  match o with
  | none => dflt
  | some s => if s == "" then dflt else s

/-- Characters `str.strip()` removes. -/
def isPySpace (c : Char) : Bool :=
  c == ' ' || c == '\t' || c == '\n' || c == '\r' || c == '\x0b' || c == '\x0c'

/-- Python `str.strip()`: drop whitespace from both ends. -/
def pyStrip (s : String) : String :=
  String.mk (((s.data.dropWhile isPySpace).reverse.dropWhile isPySpace).reverse)

/-- The role gate of the approve/reject handlers:
`user_role not in ["Manager", "Administrator"]`. -/
def isManagerOrAdmin (db : DBState) (userId : String) : Bool :=
  match userRole db userId with
  | none => false
  | some r => r == "Manager" || r == "Administrator"

/-- The `accountledger` row `approve_journal_entry` inserts for one line. -/
def mkPosting (e : EntryRow) (l : LineRow) (now : String) : PostingRow :=
  { accountID := l.accountID
    journalEntryID := e.journalEntryID
    transactionDate := e.entryDate
    description := pyOr e.description "Journal Entry"
    debit := if l.type == "Debit" then l.amount else ⟨0, 2⟩
    credit := if l.type == "Credit" then l.amount else ⟨0, 2⟩
    postTimestamp := now }

/-- The status update of `approve_journal_entry`. -/
def setEntryApproved (db : DBState) (entryId : Nat) (approverId now : String) : DBState :=
  { db with entries := db.entries.map (fun e =>
      if e.journalEntryID == entryId then
        { e with status := "Approved", approvedBy := some approverId, approvalDate := some now }
      else e) }

/-- The status update of `reject_journal_entry`. -/
def setEntryRejected (db : DBState) (entryId : Nat) (approverId now reason : String) : DBState :=
  { db with entries := db.entries.map (fun e =>
      if e.journalEntryID == entryId then
        { e with status := "Rejected", approvedBy := some approverId,
                 approvalDate := some now, rejectionReason := some reason }
      else e) }

/-- The `chartofaccounts` balance update of `approve_journal_entry`. -/
def setBalance (db : DBState) (accountId : Nat) (newBalance : Dec) : DBState :=
  { db with accounts := db.accounts.map (fun a =>
      if a.accountID == accountId then { a with balance := newBalance } else a) }

/-- Insert one `journal_event_logs` row. -/
def logStep (db : DBState) : DBState := { db with logs := db.logs + 1 }

/-- The two table writes `approve_journal_entry` performs for one entry line,
in source order: insert the ledger posting, then (when the account row is
found) recompute and write its balance.  Each is a separate call to the
persistence collaborator. -/
def postLineSteps (e : EntryRow) (now : String) (l : LineRow) : List (DBState → DBState) :=
  [fun d => { d with ledger := d.ledger ++ [mkPosting e l now] },
   fun d =>
     match findAccount d l.accountID with
     | none => d
     | some acct =>
       setBalance d l.accountID (computeNewBalance acct.balance l.amount l.type acct.normalSide)]

/-- The full write sequence of a successful `approve_journal_entry` call, in
source order: the status update, then per line the posting insert and the
balance update, then the audit-log insert. -/
def approveSteps (db : DBState) (e : EntryRow) (approverId now : String) : List (DBState → DBState) :=
  (fun d => setEntryApproved d e.journalEntryID approverId now)
    :: (((entryLines db e.journalEntryID).map (postLineSteps e now)).flatten ++ [logStep])

/-- Apply a prefix of a write sequence (all of it for a completed call; a
proper prefix when the persistence collaborator fails partway, since the
handler has no transaction and never undoes earlier writes). -/
def runSteps (db : DBState) (steps : List (DBState → DBState)) : DBState :=
  steps.foldl (fun d f => f d) db

/-- `approve_journal_entry`: role gate, entry fetch, status checks, then the
write sequence. -/
def approve (db : DBState) (approverId : String) (entryId : Nat) (now : String) :
    Except ApiErr DBState :=
  if !(isManagerOrAdmin db approverId) then .error .permission
  else match findEntry db entryId with
    | none => .error .notFound
    | some e =>
      if e.status == "Approved" then .error .invalidState
      else if e.status == "Rejected" then .error .invalidState
      else .ok (runSteps db (approveSteps db e approverId now))

/-- `reject_journal_entry`: role gate, entry fetch, status checks, reason
length check on the stripped reason, then the status update and audit log. -/
def reject (db : DBState) (approverId : String) (entryId : Nat) (reason now : String) :
    Except ApiErr DBState :=
  if !(isManagerOrAdmin db approverId) then .error .permission
  else match findEntry db entryId with
    | none => .error .notFound
    | some e =>
      if e.status == "Approved" then .error .invalidState
      else if e.status == "Rejected" then .error .invalidState
      else if (pyStrip reason).length < 5 then .error .reasonTooShort
      else .ok (logStep (setEntryRejected db entryId approverId now reason))

/-- The `journalentrylines` row inserted for one submitted line (the insert
dictionaries of `create_journal_entry` and `update_journal_entry`). -/
def mkLineRow (entryId : Nat) (l : RawLine) : LineRow :=
  { journalEntryID := entryId
    accountID := l.account_id.getD 0
    type := l.type.getD ""
    amount := l.amount.getD ⟨0, 0⟩ }

/-- `create_journal_entry` (attachment uploads and manager e-mails are
side-channels that write none of the modelled tables): validate, then insert
the Pending entry, its lines, and the audit-log row.  `newId` is the
`JournalEntryID` the database assigns to the inserted entry. -/
def createJournalEntry (db : DBState) (creatorId entryDate : String)
    (description : Option String) (isAdjusting : Bool) (linesData : List RawLine)
    (now : String) (newId : Nat) : Except ApiErr DBState :=
  match validateLines linesData with
  | .error e => .error e
  | .ok _ =>
    .ok (logStep { db with
      entries := db.entries ++
        [{ journalEntryID := newId, entryDate := entryDate, description := description,
           status := "Pending", isAdjusting := isAdjusting, createdBy := creatorId,
           creationDate := now, approvedBy := none, approvalDate := none,
           rejectionReason := none }]
      lines := db.lines ++ linesData.map (mkLineRow newId) })

/-- The part of `get_journal_entry`'s response the claims read: the status,
the formatted line list (account reference, type, amount string), and the
approval fields. -/
structure EntryView where
  status : String
  lines : List (Nat × String × Dec)
  approvedBy : Option String
  approvalDate : Option String
  rejectionReason : Option String
deriving DecidableEq, Repr

/-- `get_journal_entry`. -/
def getJournalEntry (db : DBState) (entryId : Nat) : Option EntryView :=
  match findEntry db entryId with
  | none => none
  | some e =>
    some { status := e.status
           lines := (entryLines db entryId).map (fun l => (l.accountID, l.type, l.amount))
           approvedBy := e.approvedBy
           approvalDate := e.approvalDate
           rejectionReason := e.rejectionReason }

/-- `delete_journal_entry`: creator-or-admin gate, Pending-only, cascade
delete of lines and the entry (attachment storage is outside the model). -/
def deleteJournalEntry (db : DBState) (actorId : String) (entryId : Nat) :
    Except ApiErr DBState :=
  match findEntry db entryId with
  | none => .error .notFound
  | some e =>
    if !(e.createdBy == actorId) && !(userRole db actorId == some "Administrator") then
      .error .permission
    else if e.status != "Pending" then .error .invalidState
    else .ok (logStep { db with
      lines := db.lines.filter (fun l => l.journalEntryID != entryId)
      entries := db.entries.filter (fun x => x.journalEntryID != entryId) })

/-- `update_journal_entry`.  The handler applies the basic-field update
before it validates replacement lines, so a line-validation failure leaves
that update in place; the result therefore carries the final state next to
the optional error instead of using `Except`. -/
def applyBasicPatch (db : DBState) (entryId : Nat)
    (newEntryDate newDescription : Option String) (newIsAdjusting : Option Bool) : DBState :=
  if newEntryDate.isSome || newDescription.isSome || newIsAdjusting.isSome then
    { db with entries := db.entries.map (fun x =>
        if x.journalEntryID == entryId then
          { x with entryDate := newEntryDate.getD x.entryDate
                   description := match newDescription with
                                  | some dsc => some dsc
                                  | none => x.description
                   isAdjusting := newIsAdjusting.getD x.isAdjusting }
        else x) }
  else db

def updateJournalEntry (db : DBState) (actorId : String) (entryId : Nat)
    (newEntryDate newDescription : Option String) (newIsAdjusting : Option Bool)
    (newLines : Option (List RawLine)) : Option ApiErr × DBState :=
  match findEntry db entryId with
  | none => (some .notFound, db)
  | some e =>
    if !(e.createdBy == actorId) && !(userRole db actorId == some "Administrator") then
      (some .permission, db)
    else if e.status != "Pending" then (some .invalidState, db)
    else
      match newLines with
      | none => (none, logStep (applyBasicPatch db entryId newEntryDate newDescription newIsAdjusting))
      | some ls =>
        match validateLines ls with
        | .error err => (some err, applyBasicPatch db entryId newEntryDate newDescription newIsAdjusting)
        | .ok _ =>
          (none, logStep { (applyBasicPatch db entryId newEntryDate newDescription newIsAdjusting) with
            lines := (applyBasicPatch db entryId newEntryDate newDescription newIsAdjusting).lines.filter
                (fun l => l.journalEntryID != entryId)
              ++ ls.map (mkLineRow entryId) })

/-- The optional body of a `PATCH /accounts` request
(`ChartOfAccountsUpdate`): a field is `none` when absent. -/
structure AccountPatch where
  account_number : Option String
  account_name : Option String
  account_description : Option String
  normal_side : Option String
  category : Option String
  subcategory : Option String
  initial_balance : Option Dec
  display_order : Option Nat
  statement_type : Option String
  is_active : Option Bool
  comment : Option String
deriving DecidableEq, Repr

/-- The patch with every field absent. -/
def emptyPatch : AccountPatch :=
  { account_number := none, account_name := none, account_description := none
    normal_side := none, category := none, subcategory := none
    initial_balance := none, display_order := none, statement_type := none
    is_active := none, comment := none }

/-- Uniqueness probe of `update_account`: another account already holds this
account number. -/
def numberTaken (db : DBState) (accountId : Nat) (n : String) : Bool :=
  db.accounts.any (fun a => a.accountNumber == n && a.accountID != accountId)

/-- Uniqueness probe of `update_account`: another account already holds this
account name. -/
def nameTaken (db : DBState) (accountId : Nat) (n : String) : Bool :=
  db.accounts.any (fun a => a.accountName == n && a.accountID != accountId)

/-- The categories `create_account`/`update_account` accept. -/
def validCategories : List String :=
  ["Asset", "Liability", "Equity", "Revenue", "Expense"]

/-- Application of the `update_data` dictionary `update_account` builds: a
column is written exactly when the corresponding request field is present
(`is not None`); `initial_balance` writes the `Balance` column and
`is_active` writes `IsActive`. -/
def applyAccountPatch (p : AccountPatch) (a : AccountRow) : AccountRow :=
  { a with
    accountNumber := p.account_number.getD a.accountNumber
    accountName := p.account_name.getD a.accountName
    accountDescription := match p.account_description with
                          | some d => some d
                          | none => a.accountDescription
    normalSide := p.normal_side.getD a.normalSide
    category := p.category.getD a.category
    subcategory := match p.subcategory with
                   | some s => some s
                   | none => a.subcategory
    balance := p.initial_balance.getD a.balance
    displayOrder := match p.display_order with
                    | some o => some o
                    | none => a.displayOrder
    statementType := match p.statement_type with
                     | some s => some s
                     | none => a.statementType
    isActive := p.is_active.getD a.isActive
    comment := match p.comment with
               | some c => some c
               | none => a.comment }

/-- `update_account` (admin-gated at the route layer): existence check,
uniqueness checks for a new number or name, validity checks for a new normal
side or category, then one update writing every supplied field.  When the
patch is empty the handler returns the account unchanged, which coincides
with applying the empty update. -/
def updateAccount (db : DBState) (accountId : Nat) (p : AccountPatch) :
    Except ApiErr DBState :=
  match findAccount db accountId with
  | none => .error .notFound
  | some _ =>
    if (match p.account_number with
        | some n => numberTaken db accountId n
        | none => false) then .error .conflict
    else if (match p.account_name with
        | some n => nameTaken db accountId n
        | none => false) then .error .conflict
    else if (match p.normal_side with
        | some ns => !(ns == "Debit" || ns == "Credit")
        | none => false) then .error .invalidNormalSide
    else if (match p.category with
        | some c => !(validCategories.contains c)
        | none => false) then .error .invalidCategory
    else .ok { db with accounts := db.accounts.map (fun a =>
        if a.accountID == accountId then applyAccountPatch p a else a) }

/-- `deactivate_account` (admin-gated at the route layer): existence check,
no-op for an already inactive account, refusal for a nonzero balance, else
set `IsActive` to false. -/
def deactivateAccount (db : DBState) (accountId : Nat) : Except ApiErr DBState :=
  match findAccount db accountId with
  | none => .error .notFound
  | some a =>
    if !a.isActive then .ok db
    else if !(a.balance.numEq ⟨0, 2⟩) then .error .nonzeroBalance
    else .ok { db with accounts := db.accounts.map (fun x =>
        if x.accountID == accountId then { x with isActive := false } else x) }

/-- Result state of a handler call: the new state on success, the untouched
input state on an error (every raise of the modelled handlers happens before
its first table write). -/
def stateAfter (r : Except ApiErr DBState) (db : DBState) : DBState :=
  match r with
  | .ok db2 => db2
  | .error _ => db

/-- Post reference of a ledger-view row: the synthetic `"Opening"` row or
`"JE-<id>"` for a posting. -/
inductive PostRef
  | opening
  | je (id : Nat)
deriving DecidableEq, Repr

/-- One row of the `get_account_ledger` response. -/
structure LedgerViewRow where
  postRef : PostRef
  date : String
  description : String
  debit : Dec
  credit : Dec
  balance : Dec
  postTimestamp : String
deriving DecidableEq, Repr

/-- String comparison used for the date filters and the ordering the handler
requests from the database. -/
def strLT (a b : String) : Bool := compare a b == Ordering.lt

/-- Non-strict string comparison. -/
def strLE (a b : String) : Bool := compare a b != Ordering.gt

/-- Ordering key of the ledger query: transaction date ascending, then post
timestamp ascending. -/
def ledgerRowLE (a b : PostingRow) : Bool :=
  match compare a.transactionDate b.transactionDate with
  | Ordering.lt => true
  | Ordering.gt => false
  | Ordering.eq => strLE a.postTimestamp b.postTimestamp

/-- Insert one posting into an already ordered list. -/
def orderedInsert (r : PostingRow) : List PostingRow → List PostingRow
  | [] => [r]
  | x :: xs => if ledgerRowLE r x then r :: x :: xs else x :: orderedInsert r xs

/-- Sort postings by the ledger ordering key. -/
def sortPostings : List PostingRow → List PostingRow
  | [] => []
  | x :: xs => orderedInsert x (sortPostings xs)

/-- The `gte`/`lte` transaction-date filters of the ledger query. -/
def inDateRange (startDate endDate : Option String) (r : PostingRow) : Bool :=
  (match startDate with
   | some s => strLE s r.transactionDate
   | none => true) &&
  (match endDate with
   | some e => strLE r.transactionDate e
   | none => true)

/-- The `accountledger` query of `get_account_ledger`: filter to the account
and the date range, ordered by transaction date then post timestamp. -/
def ledgerQuery (db : DBState) (accountId : Nat) (startDate endDate : Option String) :
    List PostingRow :=
  sortPostings (db.ledger.filter
    (fun r => r.accountID == accountId && inDateRange startDate endDate r))

/-- One step of the running-balance fold of `get_account_ledger`. -/
def ledgerStep (normalSide : String) (bal debit credit : Dec) : Dec :=
  if normalSide == "Debit" then (bal.add debit).sub credit
  else (bal.add credit).sub debit

/-- The running-balance loop of `get_account_ledger`: each returned posting
row carries the balance accumulated up to and including it. -/
def runningRows (bal : Dec) (normalSide : String) : List PostingRow → List LedgerViewRow
  | [] => []
  | r :: rs =>
    let b := ledgerStep normalSide bal r.debit r.credit
    { postRef := PostRef.je r.journalEntryID
      date := r.transactionDate
      description := r.description
      debit := r.debit
      credit := r.credit
      balance := b
      postTimestamp := r.postTimestamp } :: runningRows b normalSide rs

/-- The synthetic opening row of `get_account_ledger`. -/
def openingRow (acct : AccountRow) : LedgerViewRow :=
  { postRef := PostRef.opening
    date := acct.dateCreated
    description := "Initial Balance"
    debit := if acct.normalSide == "Debit" && decide (0 < acct.balance.mant) then acct.balance
             else ⟨0, 2⟩
    credit := if acct.normalSide == "Credit" && decide (0 < acct.balance.mant) then acct.balance.abs
              else ⟨0, 2⟩
    balance := acct.balance
    postTimestamp := acct.dateCreated }

/-- `str(account.get("DateCreated", ""))[:10]`. -/
def acctCreatedDate (acct : AccountRow) : String :=
  String.mk (acct.dateCreated.data.take 10)

/-- The opening-row condition of `get_account_ledger`. -/
def shouldShowOpening (acct : AccountRow) (rows : List LedgerViewRow)
    (startDate endDate : Option String) : Bool :=
  match startDate, endDate with
  | none, none => !rows.isEmpty || !(acct.balance.numEq ⟨0, 2⟩)
  | _, _ =>
    if (match startDate with
        | some s => strLT (acctCreatedDate acct) s
        | none => false) then false
    else if (match endDate with
        | some e => strLT e (acctCreatedDate acct)
        | none => false) then false
    else !rows.isEmpty || !(acct.balance.numEq ⟨0, 2⟩)

/-- `get_account_ledger`: existence check, the filtered ordered query, the
running-balance fold, and the conditional opening row. -/
def getAccountLedger (db : DBState) (accountId : Nat) (startDate endDate : Option String) :
    Except ApiErr (List LedgerViewRow) :=
  match findAccount db accountId with
  | none => .error .notFound
  | some acct =>
    let rows := runningRows acct.balance acct.normalSide
      (ledgerQuery db accountId startDate endDate)
    if shouldShowOpening acct rows startDate endDate then
      .ok (openingRow acct :: rows)
    else .ok rows

/-- Example profiles: a Manager, an Accountant, and an Administrator. -/
def exProfiles : List (String × Option String) :=
  [("mgr", some "Manager"), ("acct", some "Accountant"), ("adm", some "Administrator")]

/-- Example Debit-normal asset account with balance 500.00. -/
def cashAcct : AccountRow :=
  { accountID := 1, accountNumber := "1000", accountName := "Cash"
    accountDescription := none, normalSide := "Debit", category := "Asset"
    subcategory := none, balance := ⟨50000, 2⟩, displayOrder := none, statementType := none
    isActive := true, dateCreated := "2024-01-01", comment := none }

/-- Example Credit-normal liability account with balance 500.00. -/
def loanAcct : AccountRow :=
  { accountID := 2, accountNumber := "2000", accountName := "Loans Payable"
    accountDescription := none, normalSide := "Credit", category := "Liability"
    subcategory := none, balance := ⟨50000, 2⟩, displayOrder := none, statementType := none
    isActive := true, dateCreated := "2024-01-01", comment := none }

/-- Example pending entry #1 (Debit 200.00 to Cash, Credit 200.00 to Loans). -/
def pendingEntry1 : EntryRow :=
  { journalEntryID := 1, entryDate := "2024-02-01", description := some "Supplies"
    status := "Pending", isAdjusting := false, createdBy := "user1"
    creationDate := "2024-01-15", approvedBy := none, approvalDate := none
    rejectionReason := none }

/-- Example pending entry #2 (Credit 200.00 to Cash, Debit 200.00 to Loans). -/
def pendingEntry2 : EntryRow :=
  { journalEntryID := 2, entryDate := "2024-02-03", description := none
    status := "Pending", isAdjusting := false, createdBy := "user1"
    creationDate := "2024-01-16", approvedBy := none, approvalDate := none
    rejectionReason := none }

/-- Example database with both accounts and both pending entries. -/
def exDb : DBState :=
  { profiles := exProfiles
    accounts := [cashAcct, loanAcct]
    entries := [pendingEntry1, pendingEntry2]
    lines := [⟨1, 1, "Debit", ⟨20000, 2⟩⟩, ⟨1, 2, "Credit", ⟨20000, 2⟩⟩,
              ⟨2, 1, "Credit", ⟨20000, 2⟩⟩, ⟨2, 2, "Debit", ⟨20000, 2⟩⟩]
    ledger := []
    logs := 0 }

/-- Claim C3: posting a line at approval moves the referenced account's
balance by the line amount, upward exactly when the line type equals the
account's normal side: the handler's four-way branch collapses to that sign
rule for well-formed sides, approving a Debit 200.00 line against the
Debit-normal account with balance 500.00 yields 700.00 and a Credit 200.00
line yields 300.00, and symmetrically for the Credit-normal account. -/
theorem approve_balance_sign_rule :
    (∀ (bal amt : Dec) (lt ns : String),
        (lt = "Debit" ∨ lt = "Credit") → (ns = "Debit" ∨ ns = "Credit") →
        (computeNewBalance bal amt lt ns).val
          = if lt = ns then bal.val + amt.val else bal.val - amt.val) ∧
    accountBalances (stateAfter (approve exDb "mgr" 1 "2024-02-04T00:00:00") exDb)
      = [(1, ⟨70000, 2⟩), (2, ⟨70000, 2⟩)] ∧
    accountBalances (stateAfter (approve exDb "mgr" 2 "2024-02-04T00:00:00") exDb)
      = [(1, ⟨30000, 2⟩), (2, ⟨30000, 2⟩)] := by
  refine ⟨?_, by decide, by decide⟩
  rintro bal amt lt ns (rfl | rfl) (rfl | rfl) <;>
    simp [computeNewBalance, Dec.val_add, Dec.val_sub]

/-- Concrete instantiation of the sign rule of `approve_balance_sign_rule`. -/
theorem approve_balance_sign_rule_witness :
    ("Credit" = "Debit" ∨ ("Credit" : String) = "Credit") ∧
    (computeNewBalance ⟨50000, 2⟩ ⟨20000, 2⟩ "Credit" "Debit").val
      = if ("Credit" : String) = "Debit" then Dec.val ⟨50000, 2⟩ + Dec.val ⟨20000, 2⟩
        else Dec.val ⟨50000, 2⟩ - Dec.val ⟨20000, 2⟩ :=
  ⟨Or.inr rfl,
   approve_balance_sign_rule.1 ⟨50000, 2⟩ ⟨20000, 2⟩ "Credit" "Debit"
     (Or.inr rfl) (Or.inl rfl)⟩

theorem postLineSteps_preserve (e : EntryRow) (now : String) (l : LineRow) :
    ∀ f ∈ postLineSteps e now l, ∀ d : DBState,
      (f d).entries = d.entries ∧ (f d).profiles = d.profiles := by
  intro f hf d
  unfold postLineSteps at hf
  rcases List.mem_cons.mp hf with rfl | hf
  · exact ⟨rfl, rfl⟩
  · rcases List.mem_cons.mp hf with rfl | hf
    · cases h : findAccount d l.accountID with
      | none => simp [h]
      | some acct => simp [h, setBalance]
    · simp at hf

theorem approveTail_preserve (db : DBState) (e : EntryRow) (now : String) :
    ∀ f ∈ ((entryLines db e.journalEntryID).map (postLineSteps e now)).flatten ++ [logStep],
      ∀ d : DBState, (f d).entries = d.entries ∧ (f d).profiles = d.profiles := by
  intro f hf d
  rcases List.mem_append.mp hf with hf | hf
  · obtain ⟨steps, hsteps, hfin⟩ := List.mem_flatten.mp hf
    obtain ⟨l, _, rfl⟩ := List.mem_map.mp hsteps
    exact postLineSteps_preserve e now l f hfin d
  · rcases List.mem_cons.mp hf with rfl | hf
    · exact ⟨rfl, rfl⟩
    · simp at hf

theorem runSteps_preserve (steps : List (DBState → DBState))
    (h : ∀ f ∈ steps, ∀ d : DBState, (f d).entries = d.entries ∧ (f d).profiles = d.profiles) :
    ∀ db : DBState, (runSteps db steps).entries = db.entries ∧
      (runSteps db steps).profiles = db.profiles := by
  induction steps with
  | nil => exact fun db => ⟨rfl, rfl⟩
  | cons f fs ih =>
    intro db
    have hf := h f (List.mem_cons_self _ _) db
    have hrest := ih (fun g hg d => h g (List.mem_cons_of_mem _ hg) d) (f db)
    exact ⟨hrest.1.trans hf.1, hrest.2.trans hf.2⟩

theorem find?_map_ite (l : List EntryRow) (entryId : Nat) (f : EntryRow → EntryRow)
    (hf : ∀ x, (f x).journalEntryID = x.journalEntryID) (e : EntryRow)
    (h : l.find? (fun x => x.journalEntryID == entryId) = some e) :
    (l.map (fun x => if x.journalEntryID == entryId then f x else x)).find?
        (fun x => x.journalEntryID == entryId) = some (f e) := by
  induction l with
  | nil => simp at h
  | cons y ys ih =>
    cases hy : (y.journalEntryID == entryId) with
    | true =>
      rw [List.find?_cons_of_pos (p := fun x : EntryRow => x.journalEntryID == entryId) _ hy] at h
      obtain rfl : y = e := Option.some.inj h
      simp only [List.map_cons, hy, if_true]
      have hfy : ((f y).journalEntryID == entryId) = true := by rw [hf]; exact hy
      exact List.find?_cons_of_pos (p := fun x : EntryRow => x.journalEntryID == entryId) _ hfy
    | false =>
      rw [List.find?_cons_of_neg (p := fun x : EntryRow => x.journalEntryID == entryId) _
        (by simp [hy])] at h
      simp only [List.map_cons, hy, if_false]
      rw [List.find?_cons_of_neg (p := fun x : EntryRow => x.journalEntryID == entryId) _
        (by simp [hy])]
      exact ih h

/-- Anatomy of a successful `approve` call: the role gate passed, the entry
was found in a non-terminal status, and the result is the full write
sequence. -/
theorem approve_ok_cases {db : DBState} {a : String} {entryId : Nat} {now : String}
    {db' : DBState} (h : approve db a entryId now = .ok db') :
    isManagerOrAdmin db a = true ∧
    ∃ e, findEntry db entryId = some e ∧ e.status ≠ "Approved" ∧ e.status ≠ "Rejected" ∧
      db' = runSteps db (approveSteps db e a now) := by
  unfold approve at h
  split at h
  next => simp at h
  next hrole =>
    split at h
    next => simp at h
    next e hfind =>
      split at h
      next => simp at h
      next hA =>
        split at h
        next => simp at h
        next hR =>
          refine ⟨?_, e, hfind, ?_, ?_, (Except.ok.inj h).symm⟩
          · simpa using hrole
          · simpa using hA
          · simpa using hR

/-- After a successful approval the stored entry row has status Approved,
and the profiles table is untouched. -/
theorem approve_ok_after {db : DBState} {a : String} {entryId : Nat} {now : String}
    {db' : DBState} (h : approve db a entryId now = .ok db') :
    (∃ e, findEntry db entryId = some e ∧
      findEntry db' entryId = some { e with status := "Approved", approvedBy := some a,
                                            approvalDate := some now }) ∧
    db'.profiles = db.profiles := by
  obtain ⟨_, e, hfind, _, _, rfl⟩ := approve_ok_cases h
  have hfind2 : db.entries.find? (fun x => x.journalEntryID == entryId) = some e := hfind
  have hid : e.journalEntryID = entryId :=
    eq_of_beq (List.find?_some (p := fun x : EntryRow => x.journalEntryID == entryId) hfind2)
  unfold approveSteps
  have hrun : runSteps db ((fun d => setEntryApproved d e.journalEntryID a now) ::
      (((entryLines db e.journalEntryID).map (postLineSteps e now)).flatten ++ [logStep]))
      = runSteps (setEntryApproved db e.journalEntryID a now)
        (((entryLines db e.journalEntryID).map (postLineSteps e now)).flatten ++ [logStep]) := rfl
  rw [hrun]
  have hpres := runSteps_preserve _ (approveTail_preserve db e now)
    (setEntryApproved db e.journalEntryID a now)
  constructor
  · refine ⟨e, hfind, ?_⟩
    unfold findEntry
    rw [hpres.1]
    unfold setEntryApproved
    simp only
    rw [← hid] at hfind2 ⊢
    exact find?_map_ite db.entries e.journalEntryID
      (fun x => { x with status := "Approved", approvedBy := some a,
                         approvalDate := some now })
      (fun x => rfl) e hfind2
  · rw [hpres.2]
    rfl

deriving instance DecidableEq for Except

/-- Claim C5: after a successful approval, a second approve call on the same
entry id fails with the invalid-state error and changes nothing: no second
set of ledger postings, no balance movement — an entry is posted at most
once. -/
theorem approve_second_call_invalid (db : DBState) (a : String) (entryId : Nat)
    (now now2 : String) (db' : DBState) (h : approve db a entryId now = .ok db') :
    approve db' a entryId now2 = .error ApiErr.invalidState ∧
    stateAfter (approve db' a entryId now2) db' = db' ∧
    (stateAfter (approve db' a entryId now2) db').ledger = db'.ledger ∧
    accountBalances (stateAfter (approve db' a entryId now2) db')
      = accountBalances db' := by
  obtain ⟨hrole, _, _, _, _, _⟩ := approve_ok_cases h
  obtain ⟨⟨e0, hfind0, hfind'⟩, hprof⟩ := approve_ok_after h
  have hrole' : isManagerOrAdmin db' a = true := by
    unfold isManagerOrAdmin userRole at hrole ⊢
    rw [hprof]
    exact hrole
  have herr : approve db' a entryId now2 = .error ApiErr.invalidState := by
    unfold approve
    rw [hrole', hfind']
    simp
  exact ⟨herr, by rw [herr]; rfl, by rw [herr]; rfl, by rw [herr]; rfl⟩

/-- Concrete instantiation of `approve_second_call_invalid`: approving the
example entry twice. -/
theorem approve_second_call_invalid_witness :
    approve exDb "mgr" 1 "t1" = .ok (stateAfter (approve exDb "mgr" 1 "t1") exDb) ∧
    approve (stateAfter (approve exDb "mgr" 1 "t1") exDb) "mgr" 1 "t2"
      = .error ApiErr.invalidState :=
  ⟨by decide,
   (approve_second_call_invalid exDb "mgr" 1 "t1" "t2"
     (stateAfter (approve exDb "mgr" 1 "t1") exDb) (by decide)).1⟩

/-- Claim C10: in both approve and reject the Manager/Administrator gate
runs before the entry lookup: an actor without the capability receives the
permission error whatever the entry id refers to, and the not-found or
invalid-state errors are observable only when the capability holds. -/
theorem role_gate_before_lookup :
    (∀ (db : DBState) (a : String) (entryId : Nat) (now : String),
       isManagerOrAdmin db a = false →
       approve db a entryId now = .error ApiErr.permission) ∧
    (∀ (db : DBState) (a : String) (entryId : Nat) (reason now : String),
       isManagerOrAdmin db a = false →
       reject db a entryId reason now = .error ApiErr.permission) ∧
    (∀ (db : DBState) (a : String) (entryId : Nat) (now : String),
       (approve db a entryId now = .error ApiErr.notFound ∨
        approve db a entryId now = .error ApiErr.invalidState) →
       isManagerOrAdmin db a = true) ∧
    (∀ (db : DBState) (a : String) (entryId : Nat) (reason now : String),
       (reject db a entryId reason now = .error ApiErr.notFound ∨
        reject db a entryId reason now = .error ApiErr.invalidState) →
       isManagerOrAdmin db a = true) := by
  have hap : ∀ (db : DBState) (a : String) (entryId : Nat) (now : String),
      isManagerOrAdmin db a = false →
      approve db a entryId now = .error ApiErr.permission := by
    intro db a entryId now h
    unfold approve
    rw [h]
    simp
  have hrj : ∀ (db : DBState) (a : String) (entryId : Nat) (reason now : String),
      isManagerOrAdmin db a = false →
      reject db a entryId reason now = .error ApiErr.permission := by
    intro db a entryId reason now h
    unfold reject
    rw [h]
    simp
  refine ⟨hap, hrj, ?_, ?_⟩
  · intro db a entryId now hor
    cases hrole : isManagerOrAdmin db a with
    | true => rfl
    | false =>
      rw [hap db a entryId now hrole] at hor
      rcases hor with h | h <;> simp at h
  · intro db a entryId reason now hor
    cases hrole : isManagerOrAdmin db a with
    | true => rfl
    | false =>
      rw [hrj db a entryId reason now hrole] at hor
      rcases hor with h | h <;> simp at h

/-- Concrete instantiation of `role_gate_before_lookup`: an Accountant
approving a nonexistent entry still gets the permission error. -/
theorem role_gate_before_lookup_witness :
    isManagerOrAdmin exDb "acct" = false ∧
    approve exDb "acct" 99 "t" = .error ApiErr.permission :=
  ⟨by decide, role_gate_before_lookup.1 exDb "acct" 99 "t" (by decide)⟩

/-- Claim C1 is violated by the code: approval is not transactional.  The
status update precedes the per-line writes and each write is a separate
call, so a persistence failure during the second line's posting insert (a
prefix of length 3 of the write sequence) leaves an observable state with
status Approved, one ledger posting, and one mutated balance, instead of the
pre-call state the claim requires. -/
theorem approve_midway_failure_observable :
    (findEntry (runSteps exDb ((approveSteps exDb pendingEntry1 "mgr" "t").take 3)) 1).map
        EntryRow.status = some "Approved" ∧
    (runSteps exDb ((approveSteps exDb pendingEntry1 "mgr" "t").take 3)).ledger.length = 1 ∧
    accountBalances (runSteps exDb ((approveSteps exDb pendingEntry1 "mgr" "t").take 3))
      = [(1, ⟨70000, 2⟩), (2, ⟨50000, 2⟩)] ∧
    runSteps exDb ((approveSteps exDb pendingEntry1 "mgr" "t").take 3) ≠ exDb ∧
    approve exDb "mgr" 1 "t"
      = .ok (runSteps exDb (approveSteps exDb pendingEntry1 "mgr" "t")) :=
  ⟨by decide, by decide, by decide, by decide, by decide⟩

/-- Claim C8 as literally stated fails: the handler strips whitespace before
measuring the reason, so the five-character reason consisting of "ok" and
three spaces is refused even though the claim promises success for any
reason of at least five characters. -/
theorem reject_five_char_padded_reason_fails :
    ("ok   " : String).length = 5 ∧
    (findEntry exDb 1).map EntryRow.status = some "Pending" ∧
    isManagerOrAdmin exDb "mgr" = true ∧
    reject exDb "mgr" 1 "ok   " "t" = .error ApiErr.reasonTooShort :=
  ⟨by decide, by decide, by decide, by decide⟩

/-- Claim C8 amended: for a Pending entry and an authorized approver, reject
fails and changes nothing when the whitespace-stripped reason is shorter
than 5 characters; when the stripped reason has at least 5 characters it
succeeds, stores status Rejected with the reason, approver and timestamp,
and in both cases creates no ledger postings and moves no account
balance. -/
theorem reject_reason_rule (db : DBState) (a : String) (entryId : Nat)
    (reason now : String) (e : EntryRow)
    (hrole : isManagerOrAdmin db a = true)
    (hfind : findEntry db entryId = some e)
    (hst : e.status = "Pending") :
    ((pyStrip reason).length < 5 →
      reject db a entryId reason now = .error ApiErr.reasonTooShort ∧
      stateAfter (reject db a entryId reason now) db = db) ∧
    (5 ≤ (pyStrip reason).length →
      ∃ db', reject db a entryId reason now = .ok db' ∧
        findEntry db' entryId = some { e with status := "Rejected",
                                              approvedBy := some a,
                                              approvalDate := some now,
                                              rejectionReason := some reason } ∧
        db'.ledger = db.ledger ∧
        accountBalances db' = accountBalances db) := by
  have hfind2 : db.entries.find? (fun x => x.journalEntryID == entryId) = some e := hfind
  have hred : reject db a entryId reason now =
      (if (pyStrip reason).length < 5 then .error ApiErr.reasonTooShort
       else .ok (logStep (setEntryRejected db entryId a now reason))) := by
    unfold reject
    rw [hrole, hfind]
    simp [hst]
  constructor
  · intro hlt
    have herr : reject db a entryId reason now = .error ApiErr.reasonTooShort := by
      rw [hred, if_pos hlt]
    exact ⟨herr, by rw [herr]; rfl⟩
  · intro hge
    have hok : reject db a entryId reason now
        = .ok (logStep (setEntryRejected db entryId a now reason)) := by
      rw [hred, if_neg (by omega)]
    refine ⟨_, hok, ?_, rfl, rfl⟩
    unfold findEntry logStep setEntryRejected
    simp only
    exact find?_map_ite db.entries entryId
      (fun x => { x with status := "Rejected", approvedBy := some a,
                         approvalDate := some now, rejectionReason := some reason })
      (fun x => rfl) e hfind2

/-- Concrete instantiation of `reject_reason_rule`: rejecting the example
entry with the reason of the specification scenario. -/
theorem reject_reason_rule_witness :
    isManagerOrAdmin exDb "mgr" = true ∧
    (∃ db', reject exDb "mgr" 1 "insufficient docs" "t" = .ok db' ∧
      findEntry db' 1 = some { pendingEntry1 with status := "Rejected",
                                                   approvedBy := some "mgr",
                                                   approvalDate := some "t",
                                                   rejectionReason := some "insufficient docs" } ∧
      db'.ledger = exDb.ledger ∧
      accountBalances db' = accountBalances exDb) :=
  ⟨by decide,
   (reject_reason_rule exDb "mgr" 1 "insufficient docs" "t" pendingEntry1
      (by decide) (by decide) (by decide)).2 (by decide)⟩

theorem Dec.val_zero (s : Nat) : Dec.val ⟨0, s⟩ = 0 := by
  simp [Dec.val]

theorem debitSum_nil : debitSum [] = 0 := rfl

theorem creditSum_nil : creditSum [] = 0 := rfl

theorem debitSum_cons_debit (l : RawLine) (ls : List RawLine) (d : Dec)
    (ht : l.type = some "Debit") (ha : l.amount = some d) :
    debitSum (l :: ls) = d.val + debitSum ls := by
  simp [debitSum, List.filter_cons, ht, ha]

theorem debitSum_cons_other (l : RawLine) (ls : List RawLine)
    (ht : (l.type == some "Debit") = false) :
    debitSum (l :: ls) = debitSum ls := by
  simp [debitSum, List.filter_cons, ht]

theorem creditSum_cons_credit (l : RawLine) (ls : List RawLine) (d : Dec)
    (ht : l.type = some "Credit") (ha : l.amount = some d) :
    creditSum (l :: ls) = d.val + creditSum ls := by
  simp [creditSum, List.filter_cons, ht, ha]

theorem creditSum_cons_other (l : RawLine) (ls : List RawLine)
    (ht : (l.type == some "Credit") = false) :
    creditSum (l :: ls) = creditSum ls := by
  simp [creditSum, List.filter_cons, ht]

/-- Success characterization of the validation loop: it accepts exactly the
well-formed line sets whose accumulated Debit and Credit totals agree. -/
theorem validateGo_isOk (ls : List RawLine) : ∀ td tc : Dec,
    (validateGo ls td tc).isOk = true ↔
      ((∀ l ∈ ls, LineOk l) ∧ td.val + debitSum ls = tc.val + creditSum ls) := by
  induction ls with
  | nil =>
    intro td tc
    unfold validateGo
    cases heq : td.numEq tc with
    | false =>
      simp only [heq, Bool.not_false, if_true, Except.isOk]
      constructor
      · intro h; exact absurd h (by simp [Except.toBool])
      · rintro ⟨-, hsum⟩
        rw [debitSum_nil, creditSum_nil] at hsum
        have : td.numEq tc = true := (Dec.numEq_iff td tc).mpr (by linarith)
        rw [this] at heq
        exact absurd heq (by simp)
    | true =>
      have hv := (Dec.numEq_iff td tc).mp heq
      simp only [heq, Bool.not_true, if_false, Except.isOk]
      constructor
      · intro _
        exact ⟨by simp, by rw [debitSum_nil, creditSum_nil]; linarith⟩
      · intro _; rfl
  | cons l ls ih =>
    intro td tc
    cases hacc : l.account_id with
    | none =>
      have hL : validateGo (l :: ls) td tc = .error .missingLineFields := by
        unfold validateGo; rw [hacc]
      rw [hL]
      constructor
      · intro h; exact absurd h (by simp [Except.isOk, Except.toBool])
      · rintro ⟨hall, -⟩
        have hlo := hall l (List.mem_cons_self _ _)
        unfold LineOk at hlo
        rw [hacc] at hlo
        simp at hlo
    | some v =>
      cases htype : l.type with
      | none =>
        have hL : validateGo (l :: ls) td tc = .error .missingLineFields := by
          unfold validateGo; rw [hacc, htype]
        rw [hL]
        constructor
        · intro h; exact absurd h (by simp [Except.isOk, Except.toBool])
        · rintro ⟨hall, -⟩
          have hlo := hall l (List.mem_cons_self _ _)
          unfold LineOk at hlo
          rcases hlo with ⟨-, ht | ht, -⟩ <;> rw [htype] at ht <;> exact absurd ht (by simp)
      | some t =>
        cases ham : l.amount with
        | none =>
          have hL : validateGo (l :: ls) td tc = .error .missingLineFields := by
            unfold validateGo; rw [hacc, htype, ham]
          rw [hL]
          constructor
          · intro h; exact absurd h (by simp [Except.isOk, Except.toBool])
          · rintro ⟨hall, -⟩
            have hlo := hall l (List.mem_cons_self _ _)
            unfold LineOk at hlo
            rcases hlo with ⟨-, -, d, hd, -⟩
            rw [ham] at hd
            exact absurd hd (by simp)
        | some d =>
          cases hle : d.numLE ⟨0, 0⟩ with
          | true =>
            have hdle : d.val ≤ 0 := by
              have := (Dec.numLE_iff d ⟨0, 0⟩).mp hle
              rwa [Dec.val_zero] at this
            have hL : validateGo (l :: ls) td tc = .error .nonPositiveAmount := by
              unfold validateGo; rw [hacc, htype, ham]; simp [hle]
            rw [hL]
            constructor
            · intro h; exact absurd h (by simp [Except.isOk, Except.toBool])
            · rintro ⟨hall, -⟩
              have hlo := hall l (List.mem_cons_self _ _)
              unfold LineOk at hlo
              rcases hlo with ⟨-, -, d2, hd2, hpos⟩
              rw [ham] at hd2
              obtain rfl : d = d2 := Option.some.inj hd2
              linarith
          | false =>
            have hdpos : 0 < d.val := by
              by_contra hc
              have : d.numLE ⟨0, 0⟩ = true :=
                (Dec.numLE_iff d ⟨0, 0⟩).mpr (by rw [Dec.val_zero]; linarith)
              rw [this] at hle
              exact absurd hle (by simp)
            cases htd : (t == "Debit") with
            | true =>
              obtain rfl : t = "Debit" := eq_of_beq htd
              have hL : validateGo (l :: ls) td tc = validateGo ls (td.add d) tc := by
                unfold validateGo; rw [hacc, htype, ham]; simp [hle]; rw [validateGo.eq_def]; simp [beq_iff_eq, Bool.not_eq_true']
              rw [hL, ih (td.add d) tc]
              have hds := debitSum_cons_debit l ls d htype ham
              have hcs : creditSum (l :: ls) = creditSum ls :=
                creditSum_cons_other l ls (by rw [htype]; rfl)
              have hlo : LineOk l :=
                ⟨by rw [hacc]; rfl, Or.inl htype, d, ham, hdpos⟩
              constructor
              · rintro ⟨hall, hsum⟩
                rw [Dec.val_add] at hsum
                refine ⟨?_, by rw [hds, hcs]; linarith⟩
                intro x hx
                rcases List.mem_cons.mp hx with rfl | hx
                · exact hlo
                · exact hall x hx
              · rintro ⟨hall, hsum⟩
                rw [hds, hcs] at hsum
                refine ⟨fun x hx => hall x (List.mem_cons_of_mem _ hx), ?_⟩
                rw [Dec.val_add]
                linarith
            | false =>
              cases htc : (t == "Credit") with
              | true =>
                obtain rfl : t = "Credit" := eq_of_beq htc
                have hL : validateGo (l :: ls) td tc = validateGo ls td (tc.add d) := by
                  unfold validateGo; rw [hacc, htype, ham]; simp [hle, htd]; rw [validateGo.eq_def]; simp [beq_iff_eq, Bool.not_eq_true']
                rw [hL, ih td (tc.add d)]
                have hcs := creditSum_cons_credit l ls d htype ham
                have hds : debitSum (l :: ls) = debitSum ls :=
                  debitSum_cons_other l ls (by rw [htype]; rfl)
                have hlo : LineOk l :=
                  ⟨by rw [hacc]; rfl, Or.inr htype, d, ham, hdpos⟩
                constructor
                · rintro ⟨hall, hsum⟩
                  rw [Dec.val_add] at hsum
                  refine ⟨?_, by rw [hds, hcs]; linarith⟩
                  intro x hx
                  rcases List.mem_cons.mp hx with rfl | hx
                  · exact hlo
                  · exact hall x hx
                · rintro ⟨hall, hsum⟩
                  rw [hds, hcs] at hsum
                  refine ⟨fun x hx => hall x (List.mem_cons_of_mem _ hx), ?_⟩
                  rw [Dec.val_add]
                  linarith
              | false =>
                have hL : validateGo (l :: ls) td tc = .error .invalidLineType := by
                  unfold validateGo; rw [hacc, htype, ham]; simp [hle, htd, htc]
                rw [hL]
                constructor
                · intro h; exact absurd h (by simp [Except.isOk, Except.toBool])
                · rintro ⟨hall, -⟩
                  have hlo := hall l (List.mem_cons_self _ _)
                  unfold LineOk at hlo
                  rcases hlo with ⟨-, ht | ht, -⟩ <;> rw [htype] at ht <;>
                    obtain rfl : t = _ := Option.some.inj ht
                  · exact absurd htd (by simp)
                  · exact absurd htc (by simp)

/-- Error characterization of the validation loop on well-formed lines with
differing totals: it reports the two accumulated totals. -/
theorem validateGo_good (ls : List RawLine) : ∀ td tc : Dec, (∀ l ∈ ls, LineOk l) →
    td.val + debitSum ls ≠ tc.val + creditSum ls →
    ∃ td2 tc2, validateGo ls td tc = .error (.unbalanced td2 tc2) ∧
      td2.val = td.val + debitSum ls ∧ tc2.val = tc.val + creditSum ls := by
  induction ls with
  | nil =>
    intro td tc _ hne
    have hv : td.val ≠ tc.val := by
      rw [debitSum_nil, creditSum_nil] at hne
      intro hc; exact hne (by rw [hc])
    refine ⟨td, tc, ?_, by rw [debitSum_nil]; ring, by rw [creditSum_nil]; ring⟩
    unfold validateGo
    have hne2 : td.numEq tc = false := by
      cases h : td.numEq tc with
      | false => rfl
      | true => exact absurd ((Dec.numEq_iff td tc).mp h) hv
    rw [hne2]
    simp
  | cons l ls ih =>
    intro td tc hgood hne
    obtain ⟨haccS, htyp, d, ham, hdpos⟩ := hgood l (List.mem_cons_self _ _)
    obtain ⟨v, hv⟩ := Option.isSome_iff_exists.mp haccS
    have hle : d.numLE ⟨0, 0⟩ = false := by
      cases h : d.numLE ⟨0, 0⟩ with
      | false => rfl
      | true =>
        have := (Dec.numLE_iff d ⟨0, 0⟩).mp h
        rw [Dec.val_zero] at this
        linarith
    have hrest : ∀ x ∈ ls, LineOk x := fun x hx => hgood x (List.mem_cons_of_mem _ hx)
    rcases htyp with ht | ht
    · have hds := debitSum_cons_debit l ls d ht ham
      have hcs : creditSum (l :: ls) = creditSum ls :=
        creditSum_cons_other l ls (by rw [ht]; rfl)
      have hL : validateGo (l :: ls) td tc = validateGo ls (td.add d) tc := by
        unfold validateGo; rw [hv, ht, ham]; simp [hle]; rw [validateGo.eq_def]
        simp [beq_iff_eq, Bool.not_eq_true']
      obtain ⟨td2, tc2, heq, hd2, hc2⟩ := ih (td.add d) tc hrest (by
        rw [Dec.val_add]
        rw [hds, hcs] at hne
        intro hc; exact hne (by linarith))
      refine ⟨td2, tc2, hL.trans heq, ?_, ?_⟩
      · rw [hd2, Dec.val_add, hds]; ring
      · rw [hc2, hcs]
    · have hcs := creditSum_cons_credit l ls d ht ham
      have hds : debitSum (l :: ls) = debitSum ls :=
        debitSum_cons_other l ls (by rw [ht]; rfl)
      have hL : validateGo (l :: ls) td tc = validateGo ls td (tc.add d) := by
        unfold validateGo; rw [hv, ht, ham]; simp [hle]; rw [validateGo.eq_def]
        simp [beq_iff_eq, Bool.not_eq_true']
      obtain ⟨td2, tc2, heq, hd2, hc2⟩ := ih td (tc.add d) hrest (by
        rw [Dec.val_add]
        rw [hds, hcs] at hne
        intro hc; exact hne (by linarith))
      refine ⟨td2, tc2, hL.trans heq, ?_, ?_⟩
      · rw [hd2, hds]
      · rw [hc2, Dec.val_add, hcs]; ring

theorem validateLines_isOk_iff (ls : List RawLine) :
    (validateLines ls).isOk = true ↔
      (2 ≤ ls.length ∧ (∀ l ∈ ls, LineOk l) ∧ debitSum ls = creditSum ls) := by
  unfold validateLines
  by_cases hlen : ls.length < 2
  · rw [if_pos hlen]
    constructor
    · intro h; exact absurd h (by simp [Except.isOk, Except.toBool])
    · rintro ⟨h2, -⟩; omega
  · rw [if_neg hlen]
    rw [validateGo_isOk]
    constructor
    · rintro ⟨hall, hsum⟩
      refine ⟨by omega, hall, ?_⟩
      rw [Dec.val_zero] at hsum
      linarith
    · rintro ⟨-, hall, hsum⟩
      refine ⟨hall, ?_⟩
      rw [Dec.val_zero]
      linarith

theorem validateLines_unbalanced (ls : List RawLine) (h2 : 2 ≤ ls.length)
    (hgood : ∀ l ∈ ls, LineOk l) (hne : debitSum ls ≠ creditSum ls) :
    ∃ td tc, validateLines ls = .error (.unbalanced td tc) ∧
      td.val = debitSum ls ∧ tc.val = creditSum ls := by
  unfold validateLines
  rw [if_neg (by omega)]
  obtain ⟨td2, tc2, heq, hd, hc⟩ := validateGo_good ls ⟨0, 2⟩ ⟨0, 2⟩ hgood (by
    rw [Dec.val_zero]
    intro hc; exact hne (by linarith))
  refine ⟨td2, tc2, heq, ?_, ?_⟩
  · rw [hd, Dec.val_zero]; ring
  · rw [hc, Dec.val_zero]; ring

/-- Claim C4: submitted lines validate exactly when there are at least two
of them, each carries an account reference, a Debit/Credit type and a
strictly positive amount, and the exact decimal Debit and Credit totals
agree; differing totals are rejected with both totals reported in the error,
and a validation failure persists neither the entry nor any line. -/
theorem create_validation_rule :
    (∀ ls : List RawLine,
       (validateLines ls).isOk = true ↔
         (2 ≤ ls.length ∧ (∀ l ∈ ls, LineOk l) ∧ debitSum ls = creditSum ls)) ∧
    (∀ ls : List RawLine, 2 ≤ ls.length → (∀ l ∈ ls, LineOk l) →
       debitSum ls ≠ creditSum ls →
       ∃ td tc, validateLines ls = .error (.unbalanced td tc) ∧
         td.val = debitSum ls ∧ tc.val = creditSum ls) ∧
    (∀ (db : DBState) (creatorId entryDate : String) (description : Option String)
       (isAdjusting : Bool) (ls : List RawLine) (now : String) (newId : Nat)
       (err : ApiErr),
       validateLines ls = .error err →
       createJournalEntry db creatorId entryDate description isAdjusting ls now newId
         = .error err ∧
       stateAfter (createJournalEntry db creatorId entryDate description isAdjusting
         ls now newId) db = db) := by
  refine ⟨validateLines_isOk_iff, validateLines_unbalanced, ?_⟩
  intro db creatorId entryDate description isAdjusting ls now newId err hverr
  have hcr : createJournalEntry db creatorId entryDate description isAdjusting ls now newId
      = .error err := by
    unfold createJournalEntry
    rw [hverr]
  exact ⟨hcr, by rw [hcr]; rfl⟩

/-- Concrete instantiation of `create_validation_rule`: an empty line set is
rejected and creates nothing. -/
theorem create_validation_rule_witness :
    validateLines [] = .error ApiErr.tooFewLines ∧
    createJournalEntry exDb "user1" "2024-03-01" none false [] "t" 7
      = .error ApiErr.tooFewLines :=
  ⟨by decide,
   (create_validation_rule.2.2 exDb "user1" "2024-03-01" none false [] "t" 7
      ApiErr.tooFewLines (by decide)).1⟩

/-- Claim C9: submitting a valid line set and immediately reading the entry
back yields status Pending and exactly the submitted lines — same account
reference, same type, and the amount unchanged as a decimal (value and
scale), with the approval fields still empty. -/
theorem create_read_roundtrip (db : DBState) (creatorId entryDate : String)
    (description : Option String) (isAdjusting : Bool) (ls : List RawLine)
    (now : String) (newId : Nat)
    (hok : (validateLines ls).isOk = true)
    (hfresh : ∀ e ∈ db.entries, e.journalEntryID ≠ newId)
    (hfreshL : ∀ l ∈ db.lines, l.journalEntryID ≠ newId) :
    (∀ l ∈ ls, ∃ a t d, l.account_id = some a ∧ l.type = some t ∧ l.amount = some d) ∧
    ∃ db', createJournalEntry db creatorId entryDate description isAdjusting ls now newId
        = .ok db' ∧
      getJournalEntry db' newId = some
        { status := "Pending"
          lines := ls.map (fun l => (l.account_id.getD 0, l.type.getD "", l.amount.getD ⟨0, 0⟩))
          approvedBy := none
          approvalDate := none
          rejectionReason := none } := by
  constructor
  · intro l hl
    obtain ⟨-, hall, -⟩ := (validateLines_isOk_iff ls).mp hok
    obtain ⟨haccS, htyp, d, ham, -⟩ := hall l hl
    obtain ⟨a, ha⟩ := Option.isSome_iff_exists.mp haccS
    rcases htyp with ht | ht
    · exact ⟨a, "Debit", d, ha, ht, ham⟩
    · exact ⟨a, "Credit", d, ha, ht, ham⟩
  · have hcr : ∃ p, validateLines ls = .ok p := by
      cases hv : validateLines ls with
      | error e => rw [hv] at hok; exact absurd hok (by simp [Except.isOk, Except.toBool])
      | ok p => exact ⟨p, rfl⟩
    obtain ⟨p, hp⟩ := hcr
    refine ⟨_, by unfold createJournalEntry; rw [hp], ?_⟩
    unfold getJournalEntry findEntry entryLines logStep
    simp only
    have hfind : (db.entries ++
        [{ journalEntryID := newId, entryDate := entryDate, description := description,
           status := "Pending", isAdjusting := isAdjusting, createdBy := creatorId,
           creationDate := now, approvedBy := none, approvalDate := none,
           rejectionReason := none : EntryRow }]).find?
          (fun e => e.journalEntryID == newId)
        = some { journalEntryID := newId, entryDate := entryDate,
                 description := description, status := "Pending",
                 isAdjusting := isAdjusting, createdBy := creatorId,
                 creationDate := now, approvedBy := none, approvalDate := none,
                 rejectionReason := none } := by
      rw [List.find?_append]
      have hnone : db.entries.find? (fun e => e.journalEntryID == newId) = none := by
        rw [List.find?_eq_none]
        intro e he
        simp [hfresh e he]
      rw [hnone]
      simp
    rw [hfind]
    have hfilter : (db.lines ++ ls.map (mkLineRow newId)).filter
        (fun l => l.journalEntryID == newId) = ls.map (mkLineRow newId) := by
      rw [List.filter_append]
      have h1 : db.lines.filter (fun l => l.journalEntryID == newId) = [] := by
        rw [List.filter_eq_nil_iff]
        intro l hl
        simp [hfreshL l hl]
      have h2 : (ls.map (mkLineRow newId)).filter (fun l => l.journalEntryID == newId)
          = ls.map (mkLineRow newId) := by
        rw [List.filter_eq_self]
        intro l hl
        obtain ⟨x, -, rfl⟩ := List.mem_map.mp hl
        simp [mkLineRow]
      rw [h1, h2]
      rfl
    rw [hfilter]
    simp only [List.map_map]
    rfl

/-- Concrete instantiation of `create_read_roundtrip`: the 1000.00 scenario
of the specification. -/
theorem create_read_roundtrip_witness :
    (validateLines [⟨some 1, some "Debit", some ⟨100000, 2⟩⟩,
                    ⟨some 2, some "Credit", some ⟨100000, 2⟩⟩]).isOk = true ∧
    (∃ db', createJournalEntry exDb "user1" "2024-03-01" none false
        [⟨some 1, some "Debit", some ⟨100000, 2⟩⟩,
         ⟨some 2, some "Credit", some ⟨100000, 2⟩⟩] "t" 3 = .ok db' ∧
      getJournalEntry db' 3 = some
        { status := "Pending"
          lines := [(1, "Debit", ⟨100000, 2⟩), (2, "Credit", ⟨100000, 2⟩)]
          approvedBy := none
          approvalDate := none
          rejectionReason := none }) :=
  ⟨by decide,
   (create_read_roundtrip exDb "user1" "2024-03-01" none false
      [⟨some 1, some "Debit", some ⟨100000, 2⟩⟩,
       ⟨some 2, some "Credit", some ⟨100000, 2⟩⟩] "t" 3
      (by decide) (by decide) (by decide)).2⟩

/-- The specification's running-balance fold: the initial balance folded
with (debit, credit) amounts under the normal-side sign rule. -/
def foldBalance (init : ℚ) (normalSide : String) (ps : List (ℚ × ℚ)) : ℚ :=
  ps.foldl (fun b p => if normalSide == "Debit" then b + p.1 - p.2 else b + p.2 - p.1) init

/-- The (debit, credit) values of the posting rows of a ledger view (the
synthetic Opening row is not a posting). -/
def rowDeltas (rs : List LedgerViewRow) : List (ℚ × ℚ) :=
  (rs.filter (fun r => r.postRef != PostRef.opening)).map
    (fun r => (r.debit.val, r.credit.val))

theorem ledgerStep_val (normalSide : String) (bal debit credit : Dec) :
    (ledgerStep normalSide bal debit credit).val =
      if normalSide == "Debit" then bal.val + debit.val - credit.val
      else bal.val + credit.val - debit.val := by
  unfold ledgerStep
  split
  · rw [Dec.val_sub, Dec.val_add]
  · rw [Dec.val_sub, Dec.val_add]

theorem runningRows_take : ∀ (rows : List PostingRow) (k : Nat) (bal : Dec) (side : String),
    (runningRows bal side rows).take k = runningRows bal side (rows.take k) := by
  intro rows
  induction rows with
  | nil => intro k bal side; simp [runningRows]
  | cons r rs ih =>
    intro k bal side
    cases k with
    | zero => simp [runningRows]
    | succ j => simp [runningRows, ih]

theorem rowDeltas_runningRows : ∀ (rows : List PostingRow) (bal : Dec) (side : String),
    rowDeltas (runningRows bal side rows) =
      rows.map (fun r => (r.debit.val, r.credit.val)) := by
  intro rows
  induction rows with
  | nil => intro bal side; rfl
  | cons r rs ih =>
    intro bal side
    have hne : ((PostRef.je r.journalEntryID) != PostRef.opening) = true := rfl
    unfold runningRows rowDeltas
    rw [List.filter_cons]
    simp only [hne, if_true, List.map_cons]
    have := ih (ledgerStep side bal r.debit r.credit) side
    unfold rowDeltas at this
    rw [this]

theorem runningRows_balance : ∀ (rows : List PostingRow) (bal : Dec) (side : String)
    (i : Nat) (h : i < (runningRows bal side rows).length),
    ((runningRows bal side rows).get ⟨i, h⟩).balance.val =
      foldBalance bal.val side ((rows.take (i + 1)).map
        (fun r => (r.debit.val, r.credit.val))) := by
  intro rows
  induction rows with
  | nil => intro bal side i h; simp [runningRows] at h
  | cons r rs ih =>
    intro bal side i h
    cases i with
    | zero =>
      show (ledgerStep side bal r.debit r.credit).val = _
      rw [ledgerStep_val]
      simp [foldBalance]
    | succ j =>
      have hlen : j < (runningRows (ledgerStep side bal r.debit r.credit) side rs).length := by
        have := h
        simp [runningRows] at this
        simpa using this
      have hih := ih (ledgerStep side bal r.debit r.credit) side j hlen
      show ((runningRows (ledgerStep side bal r.debit r.credit) side rs).get ⟨j, hlen⟩).balance.val = _
      rw [hih]
      simp only [List.take, List.map_cons]
      unfold foldBalance
      rw [List.foldl_cons, ledgerStep_val]

/-- The response of `get_account_ledger` for an existing account, made
explicit. -/
theorem getAccountLedger_eq (db : DBState) (accountId : Nat) (sd ed : Option String)
    (acct : AccountRow) (hacct : findAccount db accountId = some acct) :
    getAccountLedger db accountId sd ed =
      (if shouldShowOpening acct
          (runningRows acct.balance acct.normalSide (ledgerQuery db accountId sd ed)) sd ed
       then .ok (openingRow acct ::
          runningRows acct.balance acct.normalSide (ledgerQuery db accountId sd ed))
       else .ok (runningRows acct.balance acct.normalSide (ledgerQuery db accountId sd ed))) := by
  unfold getAccountLedger
  rw [hacct]

theorem rowDeltas_opening_cons (acct : AccountRow) (xs : List LedgerViewRow) :
    rowDeltas (openingRow acct :: xs) = rowDeltas xs := by
  unfold rowDeltas
  rw [List.filter_cons]
  have hof : ((openingRow acct).postRef != PostRef.opening) = false := rfl
  simp [hof]

/-- Example Debit-normal account with recorded initial balance 100.00. -/
def acct100 : AccountRow :=
  { accountID := 5, accountNumber := "1005", accountName := "Petty Cash"
    accountDescription := none, normalSide := "Debit", category := "Asset"
    subcategory := none, balance := ⟨10000, 2⟩, displayOrder := none
    statementType := none, isActive := true, dateCreated := "2024-01-01"
    comment := none }

/-- Example database whose ledger holds exactly one posting for `acct100`:
a Debit of 50.00. -/
def exLedgerDb : DBState :=
  { profiles := exProfiles
    accounts := [acct100]
    entries := []
    lines := []
    ledger := [⟨5, 1, "2024-02-01", "Journal Entry", ⟨5000, 2⟩, ⟨0, 2⟩,
               "2024-02-01T10:00:00"⟩]
    logs := 0 }

/-- The two rows the ledger read of `exLedgerDb` returns: the Opening row at
balance 100.00, then the posting row at balance 150.00. -/
def ledgerOutEx : List LedgerViewRow :=
  [⟨PostRef.opening, "2024-01-01", "Initial Balance", ⟨10000, 2⟩, ⟨0, 2⟩,
    ⟨10000, 2⟩, "2024-01-01"⟩,
   ⟨PostRef.je 1, "2024-02-01", "Journal Entry", ⟨5000, 2⟩, ⟨0, 2⟩,
    ⟨15000, 2⟩, "2024-02-01T10:00:00"⟩]

/-- Claim C2: the unfiltered ledger read of a Debit-normal account with
initial balance 100.00 and a single Debit 50.00 posting returns exactly the
Opening row at 100.00 followed by the posting row at 150.00; and in general
every returned row's running balance equals the account's recorded initial
balance folded, under the normal-side sign rule, with the returned postings
up to and including that row. -/
theorem ledger_read_running_balance :
    getAccountLedger exLedgerDb 5 none none = .ok ledgerOutEx ∧
    (∀ (db : DBState) (accountId : Nat) (sd ed : Option String) (acct : AccountRow)
       (out : List LedgerViewRow),
       findAccount db accountId = some acct →
       getAccountLedger db accountId sd ed = .ok out →
       ∀ (i : Nat) (h : i < out.length),
         (out.get ⟨i, h⟩).balance.val =
           foldBalance acct.balance.val acct.normalSide (rowDeltas (out.take (i + 1)))) := by
  refine ⟨by decide, ?_⟩
  intro db accountId sd ed acct out hacct hout i h
  rw [getAccountLedger_eq db accountId sd ed acct hacct] at hout
  cases hcond : shouldShowOpening acct
      (runningRows acct.balance acct.normalSide (ledgerQuery db accountId sd ed)) sd ed with
  | false =>
    rw [hcond] at hout
    simp only [Bool.false_eq_true, if_false] at hout
    obtain rfl : _ = out := Except.ok.inj hout
    rw [runningRows_take, rowDeltas_runningRows]
    exact runningRows_balance _ _ _ i h
  | true =>
    rw [hcond] at hout
    simp only [if_true] at hout
    obtain rfl : _ = out := Except.ok.inj hout
    cases i with
    | zero =>
      show (openingRow acct).balance.val = _
      rw [show (openingRow acct ::
          runningRows acct.balance acct.normalSide (ledgerQuery db accountId sd ed)).take 1
          = [openingRow acct] from by simp]
      rw [show rowDeltas [openingRow acct] = [] from by
        rw [show ([openingRow acct] : List LedgerViewRow) = openingRow acct :: [] from rfl,
          rowDeltas_opening_cons]; rfl]
      rfl
    | succ j =>
      have hlen : j < (runningRows acct.balance acct.normalSide
          (ledgerQuery db accountId sd ed)).length := by simpa using h
      show ((runningRows acct.balance acct.normalSide
          (ledgerQuery db accountId sd ed)).get ⟨j, hlen⟩).balance.val = _
      rw [show (openingRow acct ::
          runningRows acct.balance acct.normalSide (ledgerQuery db accountId sd ed)).take (j + 1 + 1)
          = openingRow acct :: (runningRows acct.balance acct.normalSide
            (ledgerQuery db accountId sd ed)).take (j + 1) from by simp]
      rw [rowDeltas_opening_cons, runningRows_take, rowDeltas_runningRows]
      exact runningRows_balance _ _ _ j hlen

/-- Concrete instantiation of `ledger_read_running_balance`: the second
returned row of the example read carries the folded balance. -/
theorem ledger_read_running_balance_witness :
    findAccount exLedgerDb 5 = some acct100 ∧
    getAccountLedger exLedgerDb 5 none none = .ok ledgerOutEx ∧
    (ledgerOutEx.get ⟨1, by decide⟩).balance.val =
      foldBalance acct100.balance.val acct100.normalSide (rowDeltas (ledgerOutEx.take 2)) :=
  ⟨by decide, by decide,
   ledger_read_running_balance.2 exLedgerDb 5 none none acct100 ledgerOutEx
     (by decide) (by decide) 1 (by decide)⟩

theorem applyBasicPatch_accounts (db : DBState) (entryId : Nat)
    (nd ndesc : Option String) (nadj : Option Bool) :
    (applyBasicPatch db entryId nd ndesc nadj).accounts = db.accounts := by
  unfold applyBasicPatch
  split <;> rfl

theorem applyBasicPatch_ledger (db : DBState) (entryId : Nat)
    (nd ndesc : Option String) (nadj : Option Bool) :
    (applyBasicPatch db entryId nd ndesc nadj).ledger = db.ledger := by
  unfold applyBasicPatch
  split <;> rfl

theorem createJournalEntry_accounts (db : DBState) (c ed : String)
    (dsc : Option String) (adj : Bool) (ls : List RawLine) (now : String) (nid : Nat) :
    (stateAfter (createJournalEntry db c ed dsc adj ls now nid) db).accounts
      = db.accounts := by
  unfold createJournalEntry
  cases hv : validateLines ls with
  | error e => rfl
  | ok p => rfl

theorem reject_accounts (db : DBState) (a : String) (entryId : Nat) (reason now : String) :
    (stateAfter (reject db a entryId reason now) db).accounts = db.accounts ∧
    (stateAfter (reject db a entryId reason now) db).ledger = db.ledger := by
  unfold reject
  split
  · exact ⟨rfl, rfl⟩
  · split
    · exact ⟨rfl, rfl⟩
    · split
      · exact ⟨rfl, rfl⟩
      · split
        · exact ⟨rfl, rfl⟩
        · split
          · exact ⟨rfl, rfl⟩
          · exact ⟨rfl, rfl⟩

theorem deleteJournalEntry_accounts (db : DBState) (a : String) (entryId : Nat) :
    (stateAfter (deleteJournalEntry db a entryId) db).accounts = db.accounts ∧
    (stateAfter (deleteJournalEntry db a entryId) db).ledger = db.ledger := by
  unfold deleteJournalEntry
  split
  · exact ⟨rfl, rfl⟩
  · split
    · exact ⟨rfl, rfl⟩
    · split
      · exact ⟨rfl, rfl⟩
      · exact ⟨rfl, rfl⟩

theorem updateJournalEntry_accounts (db : DBState) (a : String) (entryId : Nat)
    (nd ndesc : Option String) (nadj : Option Bool) (nl : Option (List RawLine)) :
    (updateJournalEntry db a entryId nd ndesc nadj nl).2.accounts = db.accounts ∧
    (updateJournalEntry db a entryId nd ndesc nadj nl).2.ledger = db.ledger := by
  unfold updateJournalEntry
  split
  · exact ⟨rfl, rfl⟩
  · split
    · exact ⟨rfl, rfl⟩
    · split
      · exact ⟨rfl, rfl⟩
      · split
        · exact ⟨applyBasicPatch_accounts db entryId nd ndesc nadj,
                 applyBasicPatch_ledger db entryId nd ndesc nadj⟩
        · split
          · exact ⟨applyBasicPatch_accounts db entryId nd ndesc nadj,
                   applyBasicPatch_ledger db entryId nd ndesc nadj⟩
          · exact ⟨applyBasicPatch_accounts db entryId nd ndesc nadj,
                   applyBasicPatch_ledger db entryId nd ndesc nadj⟩

theorem deactivateAccount_balances (db : DBState) (accountId : Nat) :
    accountBalances (stateAfter (deactivateAccount db accountId) db)
      = accountBalances db := by
  unfold deactivateAccount
  split
  · rfl
  · split
    · rfl
    · split
      · rfl
      · show accountBalances { db with accounts := _ } = _
        unfold accountBalances
        simp only [List.map_map]
        apply List.map_congr_left
        intro a _
        by_cases h : a.accountID = accountId <;> simp [h]

theorem updateAccount_balances_no_patch (db : DBState) (accountId : Nat)
    (p : AccountPatch) (hbal : p.initial_balance = none) :
    accountBalances (stateAfter (updateAccount db accountId p) db)
      = accountBalances db := by
  unfold updateAccount
  split
  · rfl
  · split
    · rfl
    · split
      · rfl
      · split
        · rfl
        · split
          · rfl
          · show accountBalances { db with accounts := _ } = _
            unfold accountBalances
            simp only [List.map_map]
            apply List.map_congr_left
            intro a _
            by_cases h : a.accountID = accountId <;>
              simp [h, applyAccountPatch, hbal]

/-- Claim C6 amended: besides the ledger posting performed at approval, the
account-update route also writes the stored balance whenever its request
carries an `initial_balance` value.  Every other modelled operation — entry
create, edit, reject, delete, account deactivation, and an account update
without an `initial_balance` patch — leaves the whole balance column
unchanged; the ledger read is a pure query with no state result at all. -/
theorem non_posting_ops_preserve_balances :
    (∀ (db : DBState) (c ed : String) (dsc : Option String) (adj : Bool)
       (ls : List RawLine) (now : String) (nid : Nat),
       accountBalances (stateAfter (createJournalEntry db c ed dsc adj ls now nid) db)
         = accountBalances db) ∧
    (∀ (db : DBState) (a : String) (entryId : Nat) (reason now : String),
       accountBalances (stateAfter (reject db a entryId reason now) db)
         = accountBalances db) ∧
    (∀ (db : DBState) (a : String) (entryId : Nat),
       accountBalances (stateAfter (deleteJournalEntry db a entryId) db)
         = accountBalances db) ∧
    (∀ (db : DBState) (a : String) (entryId : Nat) (nd ndesc : Option String)
       (nadj : Option Bool) (nl : Option (List RawLine)),
       accountBalances (updateJournalEntry db a entryId nd ndesc nadj nl).2
         = accountBalances db) ∧
    (∀ (db : DBState) (accountId : Nat),
       accountBalances (stateAfter (deactivateAccount db accountId) db)
         = accountBalances db) ∧
    (∀ (db : DBState) (accountId : Nat) (p : AccountPatch),
       p.initial_balance = none →
       accountBalances (stateAfter (updateAccount db accountId p) db)
         = accountBalances db) := by
  refine ⟨?_, ?_, ?_, ?_, ?_, ?_⟩
  · intro db c ed dsc adj ls now nid
    unfold accountBalances
    rw [createJournalEntry_accounts]
  · intro db a entryId reason now
    unfold accountBalances
    rw [(reject_accounts db a entryId reason now).1]
  · intro db a entryId
    unfold accountBalances
    rw [(deleteJournalEntry_accounts db a entryId).1]
  · intro db a entryId nd ndesc nadj nl
    unfold accountBalances
    rw [(updateJournalEntry_accounts db a entryId nd ndesc nadj nl).1]
  · intro db accountId
    exact deactivateAccount_balances db accountId
  · intro db accountId p hbal
    exact updateAccount_balances_no_patch db accountId p hbal

/-- Concrete instantiation of `non_posting_ops_preserve_balances`: an empty
account patch moves no balance. -/
theorem non_posting_ops_preserve_balances_witness :
    emptyPatch.initial_balance = none ∧
    accountBalances (stateAfter (updateAccount exDb 1 emptyPatch) exDb)
      = accountBalances exDb :=
  ⟨rfl, non_posting_ops_preserve_balances.2.2.2.2.2 exDb 1 emptyPatch rfl⟩

/-- The account patch that only sets `initial_balance` to 42.00. -/
def balPatch : AccountPatch := { emptyPatch with initial_balance := some ⟨4200, 2⟩ }

/-- Claim C6 as literally stated fails: the account-update operation — not a
ledger posting — rewrites the stored balance of account 1 from 500.00 to
42.00 when the patch carries an `initial_balance`. -/
theorem update_account_changes_balance :
    (updateAccount exDb 1 balPatch).isOk = true ∧
    accountBalances exDb = [(1, ⟨50000, 2⟩), (2, ⟨50000, 2⟩)] ∧
    accountBalances (stateAfter (updateAccount exDb 1 balPatch) exDb)
      = [(1, ⟨4200, 2⟩), (2, ⟨50000, 2⟩)] :=
  ⟨by decide, by decide, by decide⟩

theorem deactivateAccount_eq (db : DBState) (accountId : Nat) (a : AccountRow)
    (hfind : findAccount db accountId = some a) :
    deactivateAccount db accountId =
      (if !a.isActive then .ok db
       else if !(a.balance.numEq ⟨0, 2⟩) then .error .nonzeroBalance
       else .ok { db with accounts := db.accounts.map (fun x =>
           if x.accountID == accountId then { x with isActive := false } else x) }) := by
  unfold deactivateAccount
  rw [hfind]

/-- Claim C7 amended: the deactivate route refuses an active account whose
stored balance is nonzero and leaves the state untouched, so through that
route an account becomes inactive only at balance exactly zero; the
account-update route, however, can set `IsActive` to false with no balance
check at all. -/
theorem deactivate_requires_zero_balance :
    (∀ (db : DBState) (accountId : Nat) (a : AccountRow),
       findAccount db accountId = some a → a.isActive = true → a.balance.val ≠ 0 →
       deactivateAccount db accountId = .error ApiErr.nonzeroBalance ∧
       stateAfter (deactivateAccount db accountId) db = db) ∧
    (∀ (db : DBState) (accountId : Nat) (a : AccountRow) (db' : DBState),
       deactivateAccount db accountId = .ok db' →
       findAccount db accountId = some a → a.isActive = true →
       a.balance.val = 0) := by
  constructor
  · intro db accountId a hfind hact hnz
    have hne : a.balance.numEq ⟨0, 2⟩ = false := by
      cases hq : a.balance.numEq ⟨0, 2⟩ with
      | false => rfl
      | true =>
        have := (Dec.numEq_iff a.balance ⟨0, 2⟩).mp hq
        rw [Dec.val_zero] at this
        exact absurd this hnz
    have herr : deactivateAccount db accountId = .error ApiErr.nonzeroBalance := by
      rw [deactivateAccount_eq db accountId a hfind, hact, hne]
      simp
    exact ⟨herr, by rw [herr]; rfl⟩
  · intro db accountId a db' hok hfind hact
    rw [deactivateAccount_eq db accountId a hfind, hact] at hok
    simp only [Bool.not_true, Bool.false_eq_true, if_false] at hok
    cases hq : a.balance.numEq ⟨0, 2⟩ with
    | false => rw [hq] at hok; simp at hok
    | true =>
      have := (Dec.numEq_iff a.balance ⟨0, 2⟩).mp hq
      rwa [Dec.val_zero] at this

/-- Concrete instantiation of `deactivate_requires_zero_balance`: the
500.00-balance account cannot be deactivated through the deactivate
route. -/
theorem deactivate_requires_zero_balance_witness :
    findAccount exDb 1 = some cashAcct ∧ cashAcct.isActive = true ∧
    cashAcct.balance.val ≠ 0 ∧
    deactivateAccount exDb 1 = .error ApiErr.nonzeroBalance := by
  have hval : cashAcct.balance.val ≠ 0 := by norm_num [cashAcct, Dec.val]
  exact ⟨by decide, by decide, hval,
    (deactivate_requires_zero_balance.1 exDb 1 cashAcct (by decide) (by decide) hval).1⟩

/-- The account patch that only sets `is_active` to false. -/
def deactPatch : AccountPatch := { emptyPatch with is_active := some false }

/-- Claim C7 as literally stated fails: the account-update route sets the
500.00-balance account inactive with no balance check. -/
theorem update_account_deactivates_nonzero_balance :
    (findAccount exDb 1).map (fun a => (a.isActive, a.balance))
      = some (true, ⟨50000, 2⟩) ∧
    (updateAccount exDb 1 deactPatch).isOk = true ∧
    (findAccount (stateAfter (updateAccount exDb 1 deactPatch) exDb) 1).map
        AccountRow.isActive = some false ∧
    (findAccount (stateAfter (updateAccount exDb 1 deactPatch) exDb) 1).map
        AccountRow.balance = some ⟨50000, 2⟩ :=
  ⟨by decide, by decide, by decide, by decide⟩
